import Mathlib

/-!
Verification of the voice-activity-detection recording controller in
`mcp-server/server.py` (function `record_with_vad`, lines 103-209).

The controller reads fixed-duration audio frames from a capture device,
classifies each frame as speech or non-speech, buffers pre-trigger audio in a
bounded deque (`pre_speech_buffer`), triggers recording after 3 consecutive
voiced frames, and stops on sustained silence (a full ring buffer of recent
classifications with fewer than 10 percent voiced) or on a hard frame-count
cap (`max_frames`).

Modelling conventions:
- Frames are an abstract type `α`; the device is a function `reads : Nat →
  ReadResult α` giving the result of the i-th read attempt (`ok frame` or
  `err`, mirroring `stream.read` succeeding or raising).
- The classifier is `classify : α → Option Bool`; `none` models
  `vad.is_speech` raising, in which case the code sets `is_speech = False`.
- `collections.deque(maxlen=m)` append is `dequeAppend m`.
- The while loop `while total_frames < max_frames` is realised by structural
  recursion on the fuel `max_frames - total_frames`; since `total_frames`
  increases by exactly 1 per iteration and starts at 0, running with initial
  fuel `max_frames` is exactly the loop with the guard.
- Python `int()` on nonnegative values truncates, i.e. takes the floor; the
  duration-to-frame-count conversions are modelled over `ℚ` with `Rat.floor`.
  At the shipped constants (1.5 s, 0.3 s, 300 s with 30 ms frames) the float
  expressions in the source evaluate to exact integers (50.0, 10.0, 10000.0),
  so the rational model agrees with the float computation.
- The silence-stop comparison `num_voiced < len(ring_buffer) * 0.1` is
  modelled as `10 * num_voiced < len`; at the shipped capacity 50 the float
  product `50 * 0.1` is exactly `5.0`, so the two comparisons agree.
- Resource handling (`pa.terminate`, `stream.stop_stream`, `stream.close`)
  is recorded as an event trace produced on each control path, mirroring the
  `try`/`except`/`finally` structure of the source.
-/

namespace VoiceNotes

/-- Result of one `stream.read` attempt: a frame, or a raised exception. -/
inductive ReadResult (α : Type) where
  | ok (frame : α) : ReadResult α
  | err : ReadResult α
  deriving DecidableEq

/-- The three frame-count parameters computed at lines 128, 132 and 135 of
the source (`ring_buffer` maxlen, `max_frames`, `padding_frames`). -/
structure Config where
  ring_maxlen : Nat
  padding_frames : Nat
  max_frames : Nat
  deriving DecidableEq

/-- The mutable loop state of `record_with_vad` (lines 127-136): the
accumulated session frames, the pre-speech deque, the silence ring of
classifications, the `triggered` flag and the two counters. -/
structure RecState (α : Type) where
  frames : List α
  pre_speech_buffer : List α
  ring_buffer : List Bool
  triggered : Bool
  voiced_frames : Nat
  total_frames : Nat
  deriving DecidableEq

/-- How the frame loop exited: guard `total_frames < max_frames` failed,
`stream.read` raised (line 147 `break`), or the silence stop (line 185
`break`). -/
inductive LoopExit where
  | maxReached : LoopExit
  | readError : LoopExit
  | silenceStop : LoopExit
  deriving DecidableEq

/-- Result of the frame loop: the state after each processed frame in order,
the state at exit, and the exit reason. -/
structure LoopOut (α : Type) where
  trace : List (RecState α)
  final : RecState α
  exit : LoopExit
  deriving DecidableEq

/-- Resource events emitted by `record_with_vad`: PyAudio construction and
termination, stream open, and the `finally` block stop/close. -/
inductive Event where
  | paInit : Event
  | streamOpen : Event
  | streamStop : Event
  | streamClose : Event
  | paTerminate : Event
  deriving DecidableEq

/-- The caller-visible result of `record_with_vad`: the returned boolean, the
frame list written to the WAV file (`none` if no write happened or the write
raised), the resource event trace, and the loop result when the loop ran. -/
structure RecordOut (α : Type) where
  ret : Bool
  written : Option (List α)
  events : List Event
  loop : Option (LoopOut α)
  deriving DecidableEq

/-- `collections.deque(maxlen := m).append x`: append `x`, then discard from
the left until at most `m` elements remain. -/
def dequeAppend {α : Type} (maxlen : Nat) (buf : List α) (x : α) : List α :=
  (buf ++ [x]).drop (buf.length + 1 - maxlen)

/-- Initial loop state (lines 127-136): all buffers empty, not triggered,
both counters zero. -/
def initState {α : Type} : RecState α :=
  { frames := []
    pre_speech_buffer := []
    ring_buffer := []
    triggered := false
    voiced_frames := 0
    total_frames := 0 }

/-- One iteration of the frame loop body after a successful read
(lines 149-185). Returns the new state and whether the silence stop
(line 185 `break`) fired. -/
def processFrame {α : Type} (cfg : Config) (classify : α → Option Bool)
    (s : RecState α) (x : α) : RecState α × Bool :=
  let isSpeech := (classify x).getD false
  if s.triggered then
    let newFrames := s.frames ++ [x]
    let newRing := dequeAppend cfg.ring_maxlen s.ring_buffer isSpeech
    let stop := decide (newRing.length = cfg.ring_maxlen ∧
      10 * newRing.count true < cfg.ring_maxlen)
    ({ s with
        total_frames := s.total_frames + 1
        frames := newFrames
        ring_buffer := newRing }, stop)
  else
    let newBuf := dequeAppend cfg.padding_frames s.pre_speech_buffer x
    if isSpeech then
      if 3 ≤ s.voiced_frames + 1 then
        ({ s with
            total_frames := s.total_frames + 1
            pre_speech_buffer := newBuf
            triggered := true
            frames := s.frames ++ newBuf
            voiced_frames := 0 }, false)
      else
        ({ s with
            total_frames := s.total_frames + 1
            pre_speech_buffer := newBuf
            voiced_frames := s.voiced_frames + 1 }, false)
    else
      ({ s with
          total_frames := s.total_frames + 1
          pre_speech_buffer := newBuf
          voiced_frames := 0 }, false)

/-- The frame loop (lines 142-185), by structural recursion on the remaining
fuel `max_frames - total_frames`. Fuel 0 means the guard failed. -/
def runAux {α : Type} (cfg : Config) (classify : α → Option Bool)
    (reads : Nat → ReadResult α) : Nat → RecState α → LoopOut α
  | 0, s => ⟨[], s, LoopExit.maxReached⟩
  | fuel + 1, s =>
    match reads s.total_frames with
    | ReadResult.err => ⟨[], s, LoopExit.readError⟩
    | ReadResult.ok x =>
      let s2 := (processFrame cfg classify s x).1
      if (processFrame cfg classify s x).2 = true then
        ⟨[s2], s2, LoopExit.silenceStop⟩
      else
        let r := runAux cfg classify reads fuel s2
        ⟨s2 :: r.trace, r.final, r.exit⟩

/-- The full frame loop of `record_with_vad`, from the initial state with
fuel `max_frames`. -/
def runRecording {α : Type} (cfg : Config) (classify : α → Option Bool)
    (reads : Nat → ReadResult α) : LoopOut α :=
  runAux cfg classify reads cfg.max_frames initState

/-- The whole of `record_with_vad` (lines 103-209). `openOk` is whether
`pa.open` succeeds (lines 114-125); `writeOk` is whether the WAV write
(lines 200-209) succeeds. On open failure the function terminates PyAudio
and returns `False`; otherwise the loop runs inside `try`/`finally`, so the
stream is stopped and closed and PyAudio terminated on every path; then
`if not frames: return False`, and otherwise the write is attempted,
returning `True` on success and `False` on a write error. -/
def record_with_vad {α : Type} (cfg : Config) (classify : α → Option Bool)
    (openOk : Bool) (reads : Nat → ReadResult α) (writeOk : Bool) :
    RecordOut α :=
  if openOk = false then
    { ret := false
      written := none
      events := [Event.paInit, Event.paTerminate]
      loop := none }
  else
    let r := runRecording cfg classify reads
    let evts := [Event.paInit, Event.streamOpen, Event.streamStop,
      Event.streamClose, Event.paTerminate]
    if r.final.frames.isEmpty then
      { ret := false, written := none, events := evts, loop := some r }
    else if writeOk then
      { ret := true
        written := some r.final.frames
        events := evts
        loop := some r }
    else
      { ret := false, written := none, events := evts, loop := some r }

/-- The frames actually delivered by the device among the first `n` read
attempts (read attempt `i` contributes its frame exactly when it succeeds). -/
def consumedUpTo {α : Type} (reads : Nat → ReadResult α) (n : Nat) : List α :=
  (List.range n).filterMap fun i =>
    match reads i with
    | ReadResult.ok x => some x
    | ReadResult.err => none

/-- `int(seconds * 1000 / frame_ms)` over `ℚ`: Python `int()` truncates,
which on nonnegative values is the floor. Used at lines 128, 132, 135. -/
def durationToFrames (seconds : Rat) (frame_ms : Rat) : Int :=
  Int.floor (seconds * 1000 / frame_ms)

/-- The conversion the specification prescribes: round up, so the capacity is
never smaller than the configured duration requires. Stated from the words of
the specification, for comparison with `durationToFrames`. -/
def durationToFramesSpec (seconds : Rat) (frame_ms : Rat) : Int :=
  Int.ceil (seconds * 1000 / frame_ms)

/-- `SILENCE_TIMEOUT_SEC = 1.5` (line 37). -/
def SILENCE_TIMEOUT_SEC : Rat := 3 / 2

/-- `SPEECH_PAD_SEC = 0.3` (line 38). -/
def SPEECH_PAD_SEC : Rat := 3 / 10

/-- `MAX_RECORDING_SEC = 300` (line 39). -/
def MAX_RECORDING_SEC : Rat := 300

/-- `FRAME_DURATION_MS = 30` (line 34). -/
def FRAME_DURATION_MS : Rat := 30

/-- The configuration `record_with_vad` actually runs with (lines 128, 132,
135): ring capacity 50, padding capacity 10, hard cap 10000 frames. -/
def defaultConfig : Config :=
  { ring_maxlen := (durationToFrames SILENCE_TIMEOUT_SEC FRAME_DURATION_MS).toNat
    padding_frames := (durationToFrames SPEECH_PAD_SEC FRAME_DURATION_MS).toNat
    max_frames := (durationToFrames MAX_RECORDING_SEC FRAME_DURATION_MS).toNat }

/-- Invariant of the loop state, established at initialisation and preserved
by every processed frame: the two deques respect their capacities, the ring
never holds more classifications than frames were processed, and before the
trigger the session frame list is empty and the voiced counter is below the
trigger threshold 3; once triggered (with a positive padding capacity) the
session frame list is nonempty. -/
structure GoodState {α : Type} (cfg : Config) (s : RecState α) : Prop where
  pre_le : s.pre_speech_buffer.length ≤ cfg.padding_frames
  ring_le : s.ring_buffer.length ≤ cfg.ring_maxlen
  ring_total : s.ring_buffer.length ≤ s.total_frames
  armed_frames : s.triggered = false → s.frames = []
  armed_voiced : s.triggered = false → s.voiced_frames < 3
  rec_frames : s.triggered = true → 0 < cfg.padding_frames → s.frames ≠ []

/-- Relation between the loop state and the frames the device has delivered
so far: before the trigger the session list is empty and the pre-speech deque
is a suffix of the delivered frames; after the trigger the session list
itself is a suffix of the delivered frames. -/
def SuffixInv {α : Type} (reads : Nat → ReadResult α) (s : RecState α) : Prop :=
  (s.triggered = true → s.frames <:+ consumedUpTo reads s.total_frames) ∧
  (s.triggered = false → s.frames = [] ∧
    s.pre_speech_buffer <:+ consumedUpTo reads s.total_frames)

/-- A classifier that reports speech on every frame. -/
def clSpeech : Nat → Option Bool := fun _ => some true

/-- A classifier that reports non-speech on every frame. -/
def clSilence : Nat → Option Bool := fun _ => some false

/-- A classifier that raises on every frame. -/
def clFail : Nat → Option Bool := fun _ => none

/-- A device that delivers frame `i` on the i-th read, never failing. -/
def readsId : Nat → ReadResult Nat := fun i => ReadResult.ok i

/-- A device whose fourth read attempt raises. -/
def readsErr3 : Nat → ReadResult Nat :=
  fun i => if i < 3 then ReadResult.ok i else ReadResult.err

/-- A classifier voiced exactly on frames 0, 1, 2. -/
def clFirst3 : Nat → Option Bool := fun i => some (decide (i < 3))

/-- Small capacities (ring 2, padding 1, cap 10) for concrete runs. -/
def cfgSmall : Config := ⟨2, 1, 10⟩

/-- Small capacities (ring 1, padding 1, cap 10) for concrete runs. -/
def cfgTiny : Config := ⟨1, 1, 10⟩

/-- Small capacities with a tight hard cap (ring 1, padding 1, cap 5). -/
def cfgCap5 : Config := ⟨1, 1, 5⟩

/-! ### Lemmas about the bounded deque -/

theorem dequeAppend_length {α : Type} (m : Nat) (buf : List α) (x : α) :
    (dequeAppend m buf x).length = min (buf.length + 1) m := by
  simp only [dequeAppend, List.length_drop, List.length_append,
    List.length_singleton]
  omega

theorem dequeAppend_length_le {α : Type} (m : Nat) (buf : List α) (x : α) :
    (dequeAppend m buf x).length ≤ m := by
  rw [dequeAppend_length]
  omega

theorem dequeAppend_of_lt {α : Type} {m : Nat} {buf : List α} (x : α)
    (h : buf.length < m) : dequeAppend m buf x = buf ++ [x] := by
  rw [dequeAppend, Nat.sub_eq_zero_of_le (by omega), List.drop_zero]

theorem dequeAppend_of_full {α : Type} {m : Nat} {buf : List α} (x : α)
    (hm : 0 < m) (h : buf.length = m) :
    dequeAppend m buf x = buf.tail ++ [x] := by
  rw [dequeAppend, show buf.length + 1 - m = 1 by omega,
    List.drop_append_of_le_length (by omega), List.drop_one]

theorem dequeAppend_suffix {α : Type} (m : Nat) (buf : List α) (x : α) :
    dequeAppend m buf x <:+ buf ++ [x] :=
  List.drop_suffix _ _

theorem dequeAppend_ne_nil {α : Type} {m : Nat} (buf : List α) (x : α)
    (hm : 0 < m) : dequeAppend m buf x ≠ [] := by
  intro h
  have := dequeAppend_length m buf x
  rw [h] at this
  simp at this
  omega

theorem suffix_append_right {α : Type} {l1 l2 : List α} (x : α)
    (h : l1 <:+ l2) : l1 ++ [x] <:+ l2 ++ [x] := by
  obtain ⟨t, ht⟩ := h
  exact ⟨t, by rw [← ht, List.append_assoc]⟩

/-! ### Lemmas about one loop iteration -/

theorem processFrame_total {α : Type} (cfg : Config) (c : α → Option Bool)
    (s : RecState α) (x : α) :
    (processFrame cfg c s x).1.total_frames = s.total_frames + 1 := by
  simp only [processFrame]
  split_ifs <;> rfl

theorem processFrame_congr {α : Type} (cfg : Config) {c1 c2 : α → Option Bool}
    (s : RecState α) (x : α) (h : (c1 x).getD false = (c2 x).getD false) :
    processFrame cfg c1 s x = processFrame cfg c2 s x := by
  simp only [processFrame, h]

theorem processFrame_triggered {α : Type} (cfg : Config) (c : α → Option Bool)
    {s : RecState α} (x : α) (ht : s.triggered = true) :
    processFrame cfg c s x =
      ({ s with
          total_frames := s.total_frames + 1
          frames := s.frames ++ [x]
          ring_buffer := dequeAppend cfg.ring_maxlen s.ring_buffer
            ((c x).getD false) },
       decide ((dequeAppend cfg.ring_maxlen s.ring_buffer
            ((c x).getD false)).length = cfg.ring_maxlen ∧
          10 * (dequeAppend cfg.ring_maxlen s.ring_buffer
            ((c x).getD false)).count true < cfg.ring_maxlen)) := by
  simp only [processFrame, ht, if_true]

theorem processFrame_armed_trigger {α : Type} (cfg : Config)
    (c : α → Option Bool) {s : RecState α} (x : α) (ht : s.triggered = false)
    (hs : (c x).getD false = true) (hv : 3 ≤ s.voiced_frames + 1) :
    processFrame cfg c s x =
      ({ s with
          total_frames := s.total_frames + 1
          pre_speech_buffer := dequeAppend cfg.padding_frames
            s.pre_speech_buffer x
          triggered := true
          frames := s.frames ++ dequeAppend cfg.padding_frames
            s.pre_speech_buffer x
          voiced_frames := 0 }, false) := by
  simp only [processFrame, ht, hs, if_true, if_neg, Bool.false_eq_true,
    if_false, if_pos hv]

theorem processFrame_armed_count {α : Type} (cfg : Config)
    (c : α → Option Bool) {s : RecState α} (x : α) (ht : s.triggered = false)
    (hs : (c x).getD false = true) (hv : ¬ 3 ≤ s.voiced_frames + 1) :
    processFrame cfg c s x =
      ({ s with
          total_frames := s.total_frames + 1
          pre_speech_buffer := dequeAppend cfg.padding_frames
            s.pre_speech_buffer x
          voiced_frames := s.voiced_frames + 1 }, false) := by
  simp only [processFrame, ht, hs, if_true, Bool.false_eq_true, if_false,
    if_neg hv]

theorem processFrame_armed_silent {α : Type} (cfg : Config)
    (c : α → Option Bool) {s : RecState α} (x : α) (ht : s.triggered = false)
    (hs : (c x).getD false = false) :
    processFrame cfg c s x =
      ({ s with
          total_frames := s.total_frames + 1
          pre_speech_buffer := dequeAppend cfg.padding_frames
            s.pre_speech_buffer x
          voiced_frames := 0 }, false) := by
  simp only [processFrame, ht, hs, Bool.false_eq_true, if_false]

theorem processFrame_stop {α : Type} {cfg : Config} {c : α → Option Bool}
    {s : RecState α} {x : α} (h : (processFrame cfg c s x).2 = true) :
    s.triggered = true ∧
    (processFrame cfg c s x).1.ring_buffer.length = cfg.ring_maxlen ∧
    10 * (processFrame cfg c s x).1.ring_buffer.count true < cfg.ring_maxlen ∧
    (processFrame cfg c s x).1.frames = s.frames ++ [x] ∧
    (processFrame cfg c s x).1.triggered = true := by
  by_cases ht : s.triggered = true
  · rw [processFrame_triggered cfg c x ht] at h ⊢
    simp only [decide_eq_true_eq] at h
    exact ⟨ht, h.1, h.2, rfl, ht⟩
  · exfalso
    rw [Bool.not_eq_true] at ht
    by_cases hs : (c x).getD false = true
    · by_cases hv : 3 ≤ s.voiced_frames + 1
      · rw [processFrame_armed_trigger cfg c x ht hs hv] at h
        exact Bool.false_ne_true h
      · rw [processFrame_armed_count cfg c x ht hs hv] at h
        exact Bool.false_ne_true h
    · rw [Bool.not_eq_true] at hs
      rw [processFrame_armed_silent cfg c x ht hs] at h
      exact Bool.false_ne_true h

/-! ### The loop invariant is preserved -/

theorem processFrame_good {α : Type} {cfg : Config} {c : α → Option Bool}
    {s : RecState α} (x : α) (h : GoodState cfg s) :
    GoodState cfg (processFrame cfg c s x).1 := by
  by_cases ht : s.triggered = true
  · rw [processFrame_triggered cfg c x ht]
    refine ⟨?_, ?_, ?_, ?_, ?_, ?_⟩
    · exact h.pre_le
    · exact dequeAppend_length_le _ _ _
    · have h1 := dequeAppend_length cfg.ring_maxlen s.ring_buffer
        ((c x).getD false)
      have h2 := h.ring_total
      simp only [h1]
      omega
    · intro h2
      rw [show ({ s with
          total_frames := s.total_frames + 1
          frames := s.frames ++ [x]
          ring_buffer := dequeAppend cfg.ring_maxlen s.ring_buffer
            ((c x).getD false) } : RecState α).triggered = s.triggered
          from rfl, ht] at h2
      cases h2
    · intro h2
      rw [show ({ s with
          total_frames := s.total_frames + 1
          frames := s.frames ++ [x]
          ring_buffer := dequeAppend cfg.ring_maxlen s.ring_buffer
            ((c x).getD false) } : RecState α).triggered = s.triggered
          from rfl, ht] at h2
      cases h2
    · intro _ _
      simp
  · rw [Bool.not_eq_true] at ht
    have hbuf := dequeAppend_length_le cfg.padding_frames s.pre_speech_buffer x
    by_cases hs : (c x).getD false = true
    · by_cases hv : 3 ≤ s.voiced_frames + 1
      · rw [processFrame_armed_trigger cfg c x ht hs hv]
        refine ⟨hbuf, h.ring_le, ?_, ?_, ?_, ?_⟩
        · have := h.ring_total
          simp only
          omega
        · intro h2
          cases h2
        · intro h2
          cases h2
        · intro _ hpad
          have h1 := h.armed_frames ht
          simp only [h1, List.nil_append]
          exact dequeAppend_ne_nil _ _ hpad
      · rw [processFrame_armed_count cfg c x ht hs hv]
        refine ⟨hbuf, h.ring_le, ?_, ?_, ?_, ?_⟩
        · have := h.ring_total
          simp only
          omega
        · intro _
          exact h.armed_frames ht
        · intro _
          show s.voiced_frames + 1 < 3
          omega
        · intro h2
          rw [show ({ s with
              total_frames := s.total_frames + 1
              pre_speech_buffer := dequeAppend cfg.padding_frames
                s.pre_speech_buffer x
              voiced_frames := s.voiced_frames + 1 } : RecState α).triggered
              = s.triggered from rfl, ht] at h2
          cases h2
    · rw [Bool.not_eq_true] at hs
      rw [processFrame_armed_silent cfg c x ht hs]
      refine ⟨hbuf, h.ring_le, ?_, ?_, ?_, ?_⟩
      · have := h.ring_total
        simp only
        omega
      · intro _
        exact h.armed_frames ht
      · intro _
        show 0 < 3
        omega
      · intro h2
        rw [show ({ s with
            total_frames := s.total_frames + 1
            pre_speech_buffer := dequeAppend cfg.padding_frames
              s.pre_speech_buffer x
            voiced_frames := 0 } : RecState α).triggered
            = s.triggered from rfl, ht] at h2
        cases h2

theorem initState_good {α : Type} (cfg : Config) :
    GoodState cfg (initState (α := α)) := by
  refine ⟨?_, ?_, ?_, ?_, ?_, ?_⟩ <;> simp [initState]

theorem initState_total {α : Type} : (initState (α := α)).total_frames = 0 :=
  rfl

/-! ### Run-level lemmas, by induction on the fuel -/

theorem runAux_final_good {α : Type} {cfg : Config} {c : α → Option Bool}
    {reads : Nat → ReadResult α} :
    ∀ (fuel : Nat) (s : RecState α), GoodState cfg s →
      GoodState cfg (runAux cfg c reads fuel s).final
  | 0, _, h => h
  | fuel + 1, s, h => by
    simp only [runAux]
    cases hr : reads s.total_frames with
    | err => exact h
    | ok x =>
      by_cases hstop : (processFrame cfg c s x).2 = true
      · simp only [hstop, if_true]
        exact processFrame_good x h
      · simp only [hstop, if_false]
        exact runAux_final_good fuel _ (processFrame_good x h)

theorem runAux_trace_good {α : Type} {cfg : Config} {c : α → Option Bool}
    {reads : Nat → ReadResult α} :
    ∀ (fuel : Nat) (s : RecState α), GoodState cfg s →
      ∀ t ∈ (runAux cfg c reads fuel s).trace, GoodState cfg t
  | 0, _, _ => by
    intro t ht
    simp [runAux] at ht
  | fuel + 1, s, h => by
    simp only [runAux]
    cases hr : reads s.total_frames with
    | err =>
      intro t ht
      simp at ht
    | ok x =>
      by_cases hstop : (processFrame cfg c s x).2 = true
      · simp only [hstop, if_true]
        intro t ht
        simp at ht
        rw [ht]
        exact processFrame_good x h
      · simp only [hstop, if_false]
        intro t ht
        simp at ht
        rcases ht with ht | ht
        · rw [ht]
          exact processFrame_good x h
        · exact runAux_trace_good fuel _ (processFrame_good x h) t ht

theorem runAux_succ_err {α : Type} {cfg : Config} {c : α → Option Bool}
    {reads : Nat → ReadResult α} {s : RecState α} (fuel : Nat)
    (hr : reads s.total_frames = ReadResult.err) :
    runAux cfg c reads (fuel + 1) s = ⟨[], s, LoopExit.readError⟩ := by
  simp only [runAux, hr]

theorem runAux_succ_stop {α : Type} {cfg : Config} {c : α → Option Bool}
    {reads : Nat → ReadResult α} {s : RecState α} {x : α} (fuel : Nat)
    (hr : reads s.total_frames = ReadResult.ok x)
    (hstop : (processFrame cfg c s x).2 = true) :
    runAux cfg c reads (fuel + 1) s =
      ⟨[(processFrame cfg c s x).1], (processFrame cfg c s x).1,
        LoopExit.silenceStop⟩ := by
  simp only [runAux, hr, hstop, if_true]

theorem runAux_succ_cont {α : Type} {cfg : Config} {c : α → Option Bool}
    {reads : Nat → ReadResult α} {s : RecState α} {x : α} (fuel : Nat)
    (hr : reads s.total_frames = ReadResult.ok x)
    (hstop : ¬ (processFrame cfg c s x).2 = true) :
    runAux cfg c reads (fuel + 1) s =
      ⟨(processFrame cfg c s x).1 ::
          (runAux cfg c reads fuel (processFrame cfg c s x).1).trace,
        (runAux cfg c reads fuel (processFrame cfg c s x).1).final,
        (runAux cfg c reads fuel (processFrame cfg c s x).1).exit⟩ := by
  simp only [runAux, hr]
  rw [if_neg hstop]

theorem runAux_total_le {α : Type} {cfg : Config} {c : α → Option Bool}
    {reads : Nat → ReadResult α} :
    ∀ (fuel : Nat) (s : RecState α),
      (runAux cfg c reads fuel s).final.total_frames ≤ s.total_frames + fuel
  | 0, s => Nat.le_refl _
  | fuel + 1, s => by
    cases hr : reads s.total_frames with
    | err =>
      rw [runAux_succ_err fuel hr]
      show s.total_frames ≤ s.total_frames + (fuel + 1)
      omega
    | ok x =>
      have htot := processFrame_total cfg c s x
      by_cases hstop : (processFrame cfg c s x).2 = true
      · rw [runAux_succ_stop fuel hr hstop]
        show (processFrame cfg c s x).1.total_frames
          ≤ s.total_frames + (fuel + 1)
        omega
      · rw [runAux_succ_cont fuel hr hstop]
        have h1 := @runAux_total_le α cfg c reads fuel
          ((processFrame cfg c s x).1)
        show (runAux cfg c reads fuel
            ((processFrame cfg c s x).1)).final.total_frames
          ≤ s.total_frames + (fuel + 1)
        omega

theorem runAux_maxReached_total {α : Type} {cfg : Config} {c : α → Option Bool}
    {reads : Nat → ReadResult α} :
    ∀ (fuel : Nat) (s : RecState α),
      (runAux cfg c reads fuel s).exit = LoopExit.maxReached →
      (runAux cfg c reads fuel s).final.total_frames = s.total_frames + fuel
  | 0, s, _ => rfl
  | fuel + 1, s, h => by
    cases hr : reads s.total_frames with
    | err =>
      rw [runAux_succ_err fuel hr] at h
      cases h
    | ok x =>
      have htot := processFrame_total cfg c s x
      by_cases hstop : (processFrame cfg c s x).2 = true
      · rw [runAux_succ_stop fuel hr hstop] at h
        cases h
      · rw [runAux_succ_cont fuel hr hstop] at h ⊢
        have h1 := @runAux_maxReached_total α cfg c reads fuel
          ((processFrame cfg c s x).1) h
        show (runAux cfg c reads fuel
            ((processFrame cfg c s x).1)).final.total_frames
          = s.total_frames + (fuel + 1)
        omega

theorem runAux_trace_length {α : Type} {cfg : Config} {c : α → Option Bool}
    {reads : Nat → ReadResult α} :
    ∀ (fuel : Nat) (s : RecState α),
      s.total_frames + (runAux cfg c reads fuel s).trace.length
        = (runAux cfg c reads fuel s).final.total_frames
  | 0, s => rfl
  | fuel + 1, s => by
    cases hr : reads s.total_frames with
    | err =>
      rw [runAux_succ_err fuel hr]
      rfl
    | ok x =>
      have htot := processFrame_total cfg c s x
      by_cases hstop : (processFrame cfg c s x).2 = true
      · rw [runAux_succ_stop fuel hr hstop]
        simp only [List.length_singleton]
        omega
      · rw [runAux_succ_cont fuel hr hstop]
        have h1 := @runAux_trace_length α cfg c reads fuel
          ((processFrame cfg c s x).1)
        simp only [List.length_cons]
        omega

theorem runAux_silenceStop {α : Type} {cfg : Config} {c : α → Option Bool}
    {reads : Nat → ReadResult α} :
    ∀ (fuel : Nat) (s : RecState α),
      (runAux cfg c reads fuel s).exit = LoopExit.silenceStop →
      (runAux cfg c reads fuel s).final.ring_buffer.length = cfg.ring_maxlen ∧
      10 * (runAux cfg c reads fuel s).final.ring_buffer.count true
        < cfg.ring_maxlen ∧
      (runAux cfg c reads fuel s).final.triggered = true ∧
      (runAux cfg c reads fuel s).final.frames ≠ []
  | 0, s, h => by cases h
  | fuel + 1, s, h => by
    cases hr : reads s.total_frames with
    | err =>
      rw [runAux_succ_err fuel hr] at h
      cases h
    | ok x =>
      by_cases hstop : (processFrame cfg c s x).2 = true
      · rw [runAux_succ_stop fuel hr hstop]
        obtain ⟨ht, hlen, hcount, hfr, ht2⟩ := processFrame_stop hstop
        refine ⟨hlen, hcount, ht2, ?_⟩
        rw [hfr]
        simp
      · rw [runAux_succ_cont fuel hr hstop] at h ⊢
        exact @runAux_silenceStop α cfg c reads fuel
          ((processFrame cfg c s x).1) h

theorem runAux_readError {α : Type} {cfg : Config} {c : α → Option Bool}
    {reads : Nat → ReadResult α} :
    ∀ (fuel : Nat) (s : RecState α),
      (runAux cfg c reads fuel s).exit = LoopExit.readError →
      reads (runAux cfg c reads fuel s).final.total_frames = ReadResult.err
  | 0, s, h => by cases h
  | fuel + 1, s, h => by
    cases hr : reads s.total_frames with
    | err =>
      rw [runAux_succ_err fuel hr]
      exact hr
    | ok x =>
      by_cases hstop : (processFrame cfg c s x).2 = true
      · rw [runAux_succ_stop fuel hr hstop] at h
        cases h
      · rw [runAux_succ_cont fuel hr hstop] at h ⊢
        exact @runAux_readError α cfg c reads fuel
          ((processFrame cfg c s x).1) h

theorem runAux_congr {α : Type} {cfg : Config} {c1 c2 : α → Option Bool}
    {reads : Nat → ReadResult α}
    (hc : ∀ y, (c1 y).getD false = (c2 y).getD false) :
    ∀ (fuel : Nat) (s : RecState α),
      runAux cfg c1 reads fuel s = runAux cfg c2 reads fuel s
  | 0, s => rfl
  | fuel + 1, s => by
    cases hr : reads s.total_frames with
    | err =>
      rw [runAux_succ_err fuel hr, runAux_succ_err fuel hr]
    | ok x =>
      have hpf := processFrame_congr cfg s x (hc x)
      by_cases hstop : (processFrame cfg c1 s x).2 = true
      · rw [runAux_succ_stop fuel hr hstop,
          runAux_succ_stop fuel hr (hpf ▸ hstop), hpf]
      · rw [runAux_succ_cont fuel hr hstop,
          runAux_succ_cont fuel hr (hpf ▸ hstop), hpf,
          runAux_congr hc fuel ((processFrame cfg c2 s x).1)]

theorem consumedUpTo_succ_ok {α : Type} {reads : Nat → ReadResult α} {n : Nat}
    {x : α} (h : reads n = ReadResult.ok x) :
    consumedUpTo reads (n + 1) = consumedUpTo reads n ++ [x] := by
  simp [consumedUpTo, List.range_succ, h]

theorem processFrame_suffixInv {α : Type} {cfg : Config} {c : α → Option Bool}
    {reads : Nat → ReadResult α} {s : RecState α} {x : α}
    (hr : reads s.total_frames = ReadResult.ok x) (h : SuffixInv reads s) :
    SuffixInv reads (processFrame cfg c s x).1 := by
  have hcons := @consumedUpTo_succ_ok α reads s.total_frames x hr
  by_cases ht : s.triggered = true
  · rw [processFrame_triggered cfg c x ht]
    constructor
    · intro _
      show s.frames ++ [x] <:+ consumedUpTo reads (s.total_frames + 1)
      rw [hcons]
      exact suffix_append_right x (h.1 ht)
    · intro h2
      rw [show ({ s with
          total_frames := s.total_frames + 1
          frames := s.frames ++ [x]
          ring_buffer := dequeAppend cfg.ring_maxlen s.ring_buffer
            ((c x).getD false) } : RecState α).triggered = s.triggered
          from rfl, ht] at h2
      cases h2
  · rw [Bool.not_eq_true] at ht
    obtain ⟨hfr, hbuf⟩ := h.2 ht
    have hsufx : dequeAppend cfg.padding_frames s.pre_speech_buffer x
        <:+ consumedUpTo reads (s.total_frames + 1) := by
      rw [hcons]
      exact (dequeAppend_suffix _ _ _).trans (suffix_append_right x hbuf)
    by_cases hs : (c x).getD false = true
    · by_cases hv : 3 ≤ s.voiced_frames + 1
      · rw [processFrame_armed_trigger cfg c x ht hs hv]
        constructor
        · intro _
          show s.frames ++ dequeAppend cfg.padding_frames s.pre_speech_buffer x
            <:+ consumedUpTo reads (s.total_frames + 1)
          rw [hfr, List.nil_append]
          exact hsufx
        · intro h2
          cases h2
      · rw [processFrame_armed_count cfg c x ht hs hv]
        constructor
        · intro h2
          rw [show ({ s with
              total_frames := s.total_frames + 1
              pre_speech_buffer := dequeAppend cfg.padding_frames
                s.pre_speech_buffer x
              voiced_frames := s.voiced_frames + 1 } : RecState α).triggered
              = s.triggered from rfl, ht] at h2
          cases h2
        · intro _
          exact ⟨hfr, hsufx⟩
    · rw [Bool.not_eq_true] at hs
      rw [processFrame_armed_silent cfg c x ht hs]
      constructor
      · intro h2
        rw [show ({ s with
            total_frames := s.total_frames + 1
            pre_speech_buffer := dequeAppend cfg.padding_frames
              s.pre_speech_buffer x
            voiced_frames := 0 } : RecState α).triggered
            = s.triggered from rfl, ht] at h2
        cases h2
      · intro _
        exact ⟨hfr, hsufx⟩

theorem runAux_suffixInv {α : Type} {cfg : Config} {c : α → Option Bool}
    {reads : Nat → ReadResult α} :
    ∀ (fuel : Nat) (s : RecState α), SuffixInv reads s →
      SuffixInv reads (runAux cfg c reads fuel s).final
  | 0, _, h => h
  | fuel + 1, s, h => by
    cases hr : reads s.total_frames with
    | err =>
      rw [runAux_succ_err fuel hr]
      exact h
    | ok x =>
      by_cases hstop : (processFrame cfg c s x).2 = true
      · rw [runAux_succ_stop fuel hr hstop]
        exact processFrame_suffixInv hr h
      · rw [runAux_succ_cont fuel hr hstop]
        exact @runAux_suffixInv α cfg c reads fuel _
          (processFrame_suffixInv hr h)

theorem initState_suffixInv {α : Type} (reads : Nat → ReadResult α) :
    SuffixInv reads (initState (α := α)) := by
  constructor
  · intro h
    cases h
  · intro _
    exact ⟨rfl, List.nil_suffix⟩

theorem runRecording_frames_suffix {α : Type} (cfg : Config)
    (c : α → Option Bool) (reads : Nat → ReadResult α) :
    (runRecording cfg c reads).final.frames
      <:+ consumedUpTo reads (runRecording cfg c reads).final.total_frames := by
  have h := @runAux_suffixInv α cfg c reads cfg.max_frames initState
    (initState_suffixInv reads)
  rw [runRecording]
  by_cases ht : (runAux cfg c reads cfg.max_frames initState).final.triggered
      = true
  · exact h.1 ht
  · rw [Bool.not_eq_true] at ht
    rw [(h.2 ht).1]
    exact List.nil_suffix

theorem consumedUpTo_readsId (n : Nat) :
    consumedUpTo readsId n = List.range n := by
  simp [consumedUpTo, readsId]

/-! ### Lemmas about the wrapper `record_with_vad` -/

theorem record_open_fail {α : Type} (cfg : Config) (c : α → Option Bool)
    (reads : Nat → ReadResult α) (w : Bool) :
    record_with_vad cfg c false reads w =
      { ret := false
        written := none
        events := [Event.paInit, Event.paTerminate]
        loop := none } := by
  simp [record_with_vad]

theorem record_no_frames {α : Type} {cfg : Config} {c : α → Option Bool}
    {reads : Nat → ReadResult α} (w : Bool)
    (h : (runRecording cfg c reads).final.frames = []) :
    record_with_vad cfg c true reads w =
      { ret := false
        written := none
        events := [Event.paInit, Event.streamOpen, Event.streamStop,
          Event.streamClose, Event.paTerminate]
        loop := some (runRecording cfg c reads) } := by
  simp [record_with_vad, h]

theorem record_write_ok {α : Type} {cfg : Config} {c : α → Option Bool}
    {reads : Nat → ReadResult α}
    (h : (runRecording cfg c reads).final.frames ≠ []) :
    record_with_vad cfg c true reads true =
      { ret := true
        written := some (runRecording cfg c reads).final.frames
        events := [Event.paInit, Event.streamOpen, Event.streamStop,
          Event.streamClose, Event.paTerminate]
        loop := some (runRecording cfg c reads) } := by
  simp [record_with_vad, List.isEmpty_iff, h]

theorem record_write_fail {α : Type} {cfg : Config} {c : α → Option Bool}
    {reads : Nat → ReadResult α}
    (h : (runRecording cfg c reads).final.frames ≠ []) :
    record_with_vad cfg c true reads false =
      { ret := false
        written := none
        events := [Event.paInit, Event.streamOpen, Event.streamStop,
          Event.streamClose, Event.paTerminate]
        loop := some (runRecording cfg c reads) } := by
  simp [record_with_vad, List.isEmpty_iff, h]

/-- The integer comparison the code performs is exactly the rational
statement that the voiced fraction is below 10 percent. -/
theorem tenth_iff (v cap : Nat) (h : 0 < cap) :
    (10 * v < cap) ↔ ((v : Rat) / (cap : Rat) < 1 / 10) := by
  rw [div_lt_div_iff₀ (by exact_mod_cast h) (by norm_num : (0 : Rat) < 10),
    one_mul, mul_comm]
  exact_mod_cast Iff.rfl

theorem record_events_cases {α : Type} (cfg : Config) (c : α → Option Bool)
    (openOk : Bool) (reads : Nat → ReadResult α) (w : Bool) :
    (record_with_vad cfg c openOk reads w).events
        = [Event.paInit, Event.paTerminate] ∨
    (record_with_vad cfg c openOk reads w).events
        = [Event.paInit, Event.streamOpen, Event.streamStop,
          Event.streamClose, Event.paTerminate] := by
  cases openOk with
  | false =>
    rw [record_open_fail]
    left
    rfl
  | true =>
    by_cases hf : (runRecording cfg c reads).final.frames = []
    · rw [record_no_frames w hf]
      right
      rfl
    · cases w with
      | false =>
        rw [record_write_fail hf]
        right
        rfl
      | true =>
        rw [record_write_ok hf]
        right
        rfl

theorem record_events_open {α : Type} (cfg : Config) (c : α → Option Bool)
    (reads : Nat → ReadResult α) (w : Bool) :
    (record_with_vad cfg c true reads w).events
      = [Event.paInit, Event.streamOpen, Event.streamStop,
        Event.streamClose, Event.paTerminate] := by
  by_cases hf : (runRecording cfg c reads).final.frames = []
  · rw [record_no_frames w hf]
  · cases w with
    | false => rw [record_write_fail hf]
    | true => rw [record_write_ok hf]

theorem record_paTerminate {α : Type} (cfg : Config) (c : α → Option Bool)
    (openOk : Bool) (reads : Nat → ReadResult α) (w : Bool) :
    Event.paTerminate ∈ (record_with_vad cfg c openOk reads w).events ∧
    (record_with_vad cfg c openOk reads w).events.getLast?
      = some Event.paTerminate := by
  rcases record_events_cases cfg c openOk reads w with h | h <;>
    rw [h] <;> exact ⟨by decide, by decide⟩

/-! ### The claims -/

/-- Claim C1: in the ARMED (not yet triggered) state, each incoming frame is
appended to the pre-speech buffer and classified: a speech frame increments
the consecutive-voiced counter, a non-speech frame resets the counter to 0,
and when the counter reaches 3 the controller transitions to RECORDING,
flushes the entire pre-speech buffer (with the new frame already appended,
in original temporal order) into the session frame sequence, and resets the
counter to 0. The hypothesis that the counter is below 3 holds in every
reachable ARMED state: it is the `armed_voiced` component of `GoodState`,
established by `initState_good` and preserved by `processFrame_good`, so the
threshold is reached exactly at the value 3. -/
theorem c1_armed_trigger_logic {α : Type} (cfg : Config) (c : α → Option Bool)
    (s : RecState α) (x : α) (ht : s.triggered = false)
    (hv : s.voiced_frames < 3) :
    (processFrame cfg c s x).1.pre_speech_buffer
      = dequeAppend cfg.padding_frames s.pre_speech_buffer x ∧
    ((c x).getD false = true → s.voiced_frames + 1 < 3 →
      (processFrame cfg c s x).1.triggered = false ∧
      (processFrame cfg c s x).1.voiced_frames = s.voiced_frames + 1 ∧
      (processFrame cfg c s x).1.frames = s.frames) ∧
    ((c x).getD false = true → s.voiced_frames + 1 = 3 →
      (processFrame cfg c s x).1.triggered = true ∧
      (processFrame cfg c s x).1.frames
        = s.frames ++ dequeAppend cfg.padding_frames s.pre_speech_buffer x ∧
      (processFrame cfg c s x).1.voiced_frames = 0) ∧
    ((c x).getD false = false →
      (processFrame cfg c s x).1.triggered = false ∧
      (processFrame cfg c s x).1.voiced_frames = 0 ∧
      (processFrame cfg c s x).1.frames = s.frames) := by
  by_cases hs : (c x).getD false = true
  · by_cases hv2 : 3 ≤ s.voiced_frames + 1
    · rw [processFrame_armed_trigger cfg c x ht hs hv2]
      refine ⟨rfl, ?_, ?_, ?_⟩
      · intro _ h3
        exact absurd h3 (by omega)
      · intro _ _
        exact ⟨rfl, rfl, rfl⟩
      · intro h3
        rw [hs] at h3
        cases h3
    · rw [processFrame_armed_count cfg c x ht hs hv2]
      refine ⟨rfl, ?_, ?_, ?_⟩
      · intro _ _
        exact ⟨ht, rfl, rfl⟩
      · intro _ h3
        exact absurd h3 (by omega)
      · intro h3
        rw [hs] at h3
        cases h3
  · rw [Bool.not_eq_true] at hs
    rw [processFrame_armed_silent cfg c x ht hs]
    refine ⟨rfl, ?_, ?_, ?_⟩
    · intro h3 _
      rw [hs] at h3
      cases h3
    · intro h3 _
      rw [hs] at h3
      cases h3
    · intro _
      exact ⟨ht, rfl, rfl⟩

/-- Witness for C1: an ARMED state with voiced counter 2 and buffered frame 7
receives the voiced frame 2 (padding capacity 2): the controller triggers,
the session frames become the flushed buffer [7, 2] in temporal order, and
the counter resets to 0. -/
theorem c1_witness :
    (processFrame (⟨2, 2, 10⟩ : Config) clFirst3
        ⟨[], [7], [], false, 2, 2⟩ 2).1.triggered = true ∧
    (processFrame (⟨2, 2, 10⟩ : Config) clFirst3
        ⟨[], [7], [], false, 2, 2⟩ 2).1.frames = [7, 2] ∧
    (processFrame (⟨2, 2, 10⟩ : Config) clFirst3
        ⟨[], [7], [], false, 2, 2⟩ 2).1.voiced_frames = 0 := by
  have h := c1_armed_trigger_logic ⟨2, 2, 10⟩ clFirst3
    ⟨[], [7], [], false, 2, 2⟩ 2 rfl (by decide)
  have h3 := h.2.2.1 (by decide) rfl
  refine ⟨h3.1, ?_, h3.2.2⟩
  rw [h3.2.1]
  decide

/-- Claim C2: in the RECORDING state every incoming frame is appended to the
session frame sequence and its classification pushed into the silence ring;
the stop test can fire only when the ring holds exactly `ring_maxlen`
(= silence timeout / frame duration) classifications — so a silence stop
never occurs before that many frames have been recorded — and when the ring
is full the loop transitions to DONE exactly when the voiced fraction in the
ring is below 10 percent; a silence stop means speech was captured: the
session frames are nonempty and the recording returns True. -/
theorem c2_recording_silence_stop {α : Type} (cfg : Config)
    (c : α → Option Bool) (reads : Nat → ReadResult α) (s : RecState α)
    (x : α) :
    (s.triggered = true →
      (processFrame cfg c s x).1.frames = s.frames ++ [x] ∧
      (processFrame cfg c s x).1.ring_buffer
        = dequeAppend cfg.ring_maxlen s.ring_buffer ((c x).getD false)) ∧
    ((processFrame cfg c s x).2 = true →
      s.triggered = true ∧
      (processFrame cfg c s x).1.ring_buffer.length = cfg.ring_maxlen) ∧
    (0 < cfg.ring_maxlen → s.triggered = true →
      ((processFrame cfg c s x).2 = true ↔
        ((processFrame cfg c s x).1.ring_buffer.length = cfg.ring_maxlen ∧
          ((processFrame cfg c s x).1.ring_buffer.count true : Rat)
              / (cfg.ring_maxlen : Rat) < 1 / 10))) ∧
    ((runRecording cfg c reads).exit = LoopExit.silenceStop →
      cfg.ring_maxlen ≤ (runRecording cfg c reads).final.total_frames ∧
      (runRecording cfg c reads).final.frames ≠ [] ∧
      (record_with_vad cfg c true reads true).ret = true) := by
  refine ⟨?_, ?_, ?_, ?_⟩
  · intro ht
    rw [processFrame_triggered cfg c x ht]
    exact ⟨rfl, rfl⟩
  · intro hstop
    obtain ⟨ht, hlen, -, -, -⟩ := processFrame_stop hstop
    exact ⟨ht, hlen⟩
  · intro hcap ht
    rw [processFrame_triggered cfg c x ht]
    simp only [decide_eq_true_eq]
    exact and_congr_right fun _ => tenth_iff _ _ hcap
  · intro hexit
    obtain ⟨hlen, hcount, htr, hfr⟩ :=
      @runAux_silenceStop α cfg c reads cfg.max_frames initState hexit
    have hg := @runAux_final_good α cfg c reads cfg.max_frames initState
      (initState_good cfg)
    refine ⟨?_, hfr, ?_⟩
    · have h2 := hg.ring_total
      rw [hlen] at h2
      exact h2
    · rw [record_write_ok hfr]

/-- Witness for C2: with ring capacity 2, a triggered state whose ring holds
one non-speech entry receives another non-speech frame: the ring fills and
the fraction test fires (0 of 2 voiced, below 10 percent); and on the
concrete stream voiced on frames 0, 1, 2 then silent, the run stops by
silence no earlier than 2 recorded frames and reports captured speech. -/
theorem c2_witness :
    ((processFrame cfgSmall clSilence ⟨[9], [], [false], true, 0, 4⟩ 5).2
        = true ↔
      ((processFrame cfgSmall clSilence
          ⟨[9], [], [false], true, 0, 4⟩ 5).1.ring_buffer.length
          = cfgSmall.ring_maxlen ∧
        ((processFrame cfgSmall clSilence
            ⟨[9], [], [false], true, 0, 4⟩ 5).1.ring_buffer.count true : Rat)
            / (cfgSmall.ring_maxlen : Rat) < 1 / 10)) ∧
    cfgSmall.ring_maxlen
      ≤ (runRecording cfgSmall clFirst3 readsId).final.total_frames ∧
    (record_with_vad cfgSmall clFirst3 true readsId true).ret = true := by
  have h1 := c2_recording_silence_stop cfgSmall clSilence readsId
    ⟨[9], [], [false], true, 0, 4⟩ 5
  have h2 := c2_recording_silence_stop cfgSmall clFirst3 readsId initState 0
  have h2run := h2.2.2.2 (by decide)
  exact ⟨h1.2.2.1 (by decide) rfl, h2run.1, h2run.2.2⟩

/-- Claim C3: the total-frames counter is incremented once per processed
frame in both states; the run never processes more than `max_frames`
(= max duration / frame duration) frames and its state trace has exactly one
entry per processed frame; when the loop exits because the guard failed
(`maxReached`), the total is exactly `max_frames`; in that case, if still
ARMED the session frames are empty and the recording returns False with
nothing written (outcome: no speech detected), and if RECORDING the session
buffer is retained as-is, written out, and the recording returns True
(outcome: speech captured, stopped by timeout). -/
theorem c3_hard_cap {α : Type} (cfg : Config) (c : α → Option Bool)
    (reads : Nat → ReadResult α) (w : Bool) :
    (∀ (s : RecState α) (y : α),
      (processFrame cfg c s y).1.total_frames = s.total_frames + 1) ∧
    (runRecording cfg c reads).final.total_frames ≤ cfg.max_frames ∧
    (runRecording cfg c reads).trace.length
      = (runRecording cfg c reads).final.total_frames ∧
    ((runRecording cfg c reads).exit = LoopExit.maxReached →
      (runRecording cfg c reads).final.total_frames = cfg.max_frames) ∧
    ((runRecording cfg c reads).exit = LoopExit.maxReached →
      (runRecording cfg c reads).final.triggered = false →
      (runRecording cfg c reads).final.frames = [] ∧
      (record_with_vad cfg c true reads w).ret = false ∧
      (record_with_vad cfg c true reads w).written = none) ∧
    (0 < cfg.padding_frames →
      (runRecording cfg c reads).exit = LoopExit.maxReached →
      (runRecording cfg c reads).final.triggered = true →
      (runRecording cfg c reads).final.frames ≠ [] ∧
      (record_with_vad cfg c true reads true).ret = true ∧
      (record_with_vad cfg c true reads true).written
        = some (runRecording cfg c reads).final.frames) := by
  have hg := @runAux_final_good α cfg c reads cfg.max_frames initState
    (initState_good cfg)
  refine ⟨processFrame_total cfg c, ?_, ?_, ?_, ?_, ?_⟩
  · have h1 := @runAux_total_le α cfg c reads cfg.max_frames initState
    rw [initState_total] at h1
    show (runAux cfg c reads cfg.max_frames initState).final.total_frames
      ≤ cfg.max_frames
    omega
  · have h1 := @runAux_trace_length α cfg c reads cfg.max_frames initState
    rw [initState_total] at h1
    show (runAux cfg c reads cfg.max_frames initState).trace.length
      = (runAux cfg c reads cfg.max_frames initState).final.total_frames
    omega
  · intro hexit
    have h1 := @runAux_maxReached_total α cfg c reads cfg.max_frames
      initState hexit
    rw [initState_total] at h1
    show (runAux cfg c reads cfg.max_frames initState).final.total_frames
      = cfg.max_frames
    omega
  · intro _ htr
    have hfr := hg.armed_frames htr
    rw [record_no_frames w hfr]
    exact ⟨hfr, rfl, rfl⟩
  · intro hpad _ htr
    have hfr := hg.rec_frames htr hpad
    rw [record_write_ok hfr]
    exact ⟨hfr, rfl, rfl⟩

/-- Witness for C3: with capacities 1/1 and hard cap 5, the all-silent
stream runs to the cap with no speech (empty output, returns False, total
exactly 5 = `max_frames`), while the all-voiced stream runs to the cap in
the RECORDING state and its captured buffer is written (returns True). -/
theorem c3_witness :
    (runRecording cfgCap5 clSilence readsId).final.frames = [] ∧
    (record_with_vad cfgCap5 clSilence true readsId true).ret = false ∧
    (runRecording cfgCap5 clSpeech readsId).final.frames ≠ [] ∧
    (record_with_vad cfgCap5 clSpeech true readsId true).ret = true ∧
    (runRecording cfgCap5 clSilence readsId).final.total_frames
      = cfgCap5.max_frames := by
  have h1 := c3_hard_cap cfgCap5 clSilence readsId true
  have h2 := c3_hard_cap cfgCap5 clSpeech readsId true
  have ha := h1.2.2.2.2.1 (by decide) (by decide)
  have hb := h2.2.2.2.2.2 (by decide) (by decide) (by decide)
  exact ⟨ha.1, ha.2.1, hb.1, hb.2.1, h1.2.2.2.1 (by decide)⟩

/-- Counterexample to claim C4: the claim says a read failure aborts the
attempt with no partial output regardless of state. On the stream whose
fourth read raises, with an always-voiced classifier (capacities 1/1), the
loop triggers on the first three frames and the read failure then exits the
loop, after which the frames captured so far ARE written and the function
returns True: partial output is produced. -/
theorem c4_counterexample :
    (runRecording cfgTiny clSpeech readsErr3).exit = LoopExit.readError ∧
    (runRecording cfgTiny clSpeech readsErr3).final.frames = [2] ∧
    (record_with_vad cfgTiny clSpeech true readsErr3 true).ret = true ∧
    (record_with_vad cfgTiny clSpeech true readsErr3 true).written
      = some [2] := by
  exact ⟨by decide, by decide, by decide, by decide⟩

/-- Amended claim C4: a read failure aborts the frame loop at the failing
read (the device read at the final frame count indeed raised), the device is
released; if the failure occurs while still ARMED the session frames are
empty and no output is produced (returns False); but if it occurs during
RECORDING the frames captured so far are written as partial output and the
function returns True. -/
theorem c4_read_failure {α : Type} (cfg : Config) (c : α → Option Bool)
    (reads : Nat → ReadResult α) (w : Bool)
    (h : (runRecording cfg c reads).exit = LoopExit.readError) :
    reads (runRecording cfg c reads).final.total_frames = ReadResult.err ∧
    Event.paTerminate ∈ (record_with_vad cfg c true reads w).events ∧
    ((runRecording cfg c reads).final.triggered = false →
      (runRecording cfg c reads).final.frames = [] ∧
      (record_with_vad cfg c true reads w).ret = false ∧
      (record_with_vad cfg c true reads w).written = none) ∧
    ((runRecording cfg c reads).final.frames ≠ [] →
      (record_with_vad cfg c true reads true).ret = true ∧
      (record_with_vad cfg c true reads true).written
        = some (runRecording cfg c reads).final.frames) := by
  have hg := @runAux_final_good α cfg c reads cfg.max_frames initState
    (initState_good cfg)
  refine ⟨@runAux_readError α cfg c reads cfg.max_frames initState h,
    (record_paTerminate cfg c true reads w).1, ?_, ?_⟩
  · intro htr
    have hfr := hg.armed_frames htr
    rw [record_no_frames w hfr]
    exact ⟨hfr, rfl, rfl⟩
  · intro hfr
    rw [record_write_ok hfr]
    exact ⟨rfl, rfl⟩

/-- Witness for amended C4: an immediately-failing device leaves the ARMED
run with no output and returns False; the device failing on the fourth read
after a trigger yields the partial output [2] and returns True. -/
theorem c4_witness :
    (runRecording cfgTiny clSpeech (fun _ => ReadResult.err)).final.frames
        = [] ∧
    (record_with_vad cfgTiny clSpeech true (fun _ => ReadResult.err)
        true).ret = false ∧
    (record_with_vad cfgTiny clSpeech true readsErr3 true).written
      = some (runRecording cfgTiny clSpeech readsErr3).final.frames := by
  have h1 := c4_read_failure cfgTiny clSpeech (fun _ => ReadResult.err) true
    (by decide)
  have h2 := c4_read_failure cfgTiny clSpeech readsErr3 true (by decide)
  have ha := h1.2.2.1 (by decide)
  have hb := h2.2.2.2 (by decide)
  exact ⟨ha.1, ha.2.1, hb.2⟩

/-- Counterexample to claim C5: the claim says a failed write is surfaced as
an outcome distinct from the benign no-speech outcome. On a stream with
captured speech whose write fails, `record_with_vad` returns False with
nothing written — exactly the same caller-visible outcome as the benign
all-silent run: the two are indistinguishable to the caller. -/
theorem c5_counterexample :
    (runRecording cfgCap5 clSpeech readsId).final.frames = [2, 3, 4] ∧
    (runRecording cfgCap5 clSilence readsId).final.frames = [] ∧
    (record_with_vad cfgCap5 clSpeech true readsId false).ret
      = (record_with_vad cfgCap5 clSilence true readsId false).ret ∧
    (record_with_vad cfgCap5 clSpeech true readsId false).written
      = (record_with_vad cfgCap5 clSilence true readsId false).written := by
  exact ⟨by decide, by decide, by decide, by decide⟩

/-- Amended claim C5: a write failure is surfaced as a failure outcome
(return False, nothing written) and the in-memory frame sequence is left
intact in the loop result at the point of failure — but the outcome is
indistinguishable to the caller from the benign no-speech outcome (the same
False with nothing written), and the frames are not returned for retry. -/
theorem c5_write_failure {α : Type} (cfg : Config) (c : α → Option Bool)
    (reads : Nat → ReadResult α)
    (h : (runRecording cfg c reads).final.frames ≠ []) :
    (record_with_vad cfg c true reads false).ret = false ∧
    (record_with_vad cfg c true reads false).written = none ∧
    (record_with_vad cfg c true reads false).loop
      = some (runRecording cfg c reads) ∧
    ∀ (reads2 : Nat → ReadResult α),
      (runRecording cfg c reads2).final.frames = [] →
      (record_with_vad cfg c true reads false).ret
          = (record_with_vad cfg c true reads2 false).ret ∧
      (record_with_vad cfg c true reads false).written
          = (record_with_vad cfg c true reads2 false).written := by
  rw [record_write_fail h]
  refine ⟨rfl, rfl, rfl, ?_⟩
  intro reads2 h2
  rw [record_no_frames false h2]
  exact ⟨rfl, rfl⟩

/-- Witness for amended C5: the captured-speech run with a failing write
returns False with nothing written, the frame list intact in the loop
result, and matches the outcome of a run that captured nothing. -/
theorem c5_witness :
    (record_with_vad cfgCap5 clSpeech true readsId false).ret = false ∧
    (record_with_vad cfgCap5 clSpeech true readsId false).written = none ∧
    (record_with_vad cfgCap5 clSpeech true readsId false).ret
      = (record_with_vad cfgCap5 clSpeech true (fun _ => ReadResult.err)
          false).ret := by
  have h := c5_write_failure cfgCap5 clSpeech readsId (by decide)
  exact ⟨h.1, h.2.1, (h.2.2.2 (fun _ => ReadResult.err) (by decide)).1⟩

/-- Claim C6: a frame whose classification raises is handled as non-speech
instead of propagating the error — the step function is unchanged when the
classifier failing on that frame is replaced by one answering non-speech —
and a whole run with the always-failing classifier is observationally
identical to the same run with the all-non-speech classifier. -/
theorem c6_classifier_failsafe {α : Type} (cfg : Config) (c : α → Option Bool)
    (s : RecState α) (x : α) (openOk : Bool) (reads : Nat → ReadResult α)
    (w : Bool) (hfail : c x = none) :
    processFrame cfg c s x = processFrame cfg (fun _ => some false) s x ∧
    record_with_vad cfg (fun _ : α => none) openOk reads w
      = record_with_vad cfg (fun _ => some false) openOk reads w := by
  constructor
  · exact processFrame_congr cfg s x (by simp [hfail])
  · have hrun : runRecording cfg (fun _ : α => none) reads
        = runRecording cfg (fun _ => some false) reads :=
      @runAux_congr α cfg (fun _ => none) (fun _ => some false) reads
        (fun _ => rfl) cfg.max_frames initState
    unfold record_with_vad
    rw [hrun]

/-- Witness for C6: at the concrete frame 0 the failing classifier and the
non-speech classifier give the same step, and the two full runs coincide. -/
theorem c6_witness :
    processFrame cfgSmall clFail initState 0
      = processFrame cfgSmall (fun _ => some false) initState 0 ∧
    record_with_vad cfgSmall (fun _ : Nat => none) true readsId true
      = record_with_vad cfgSmall (fun _ => some false) true readsId true :=
  c6_classifier_failsafe cfgSmall clFail initState 0 true readsId true rfl

/-- Counterexample to claim C7: the claim says every duration-to-frame-count
conversion rounds up so the capacity is never smaller than the configured
duration requires. The code truncates (Python int): at a silence timeout of
1 second with 30 ms frames, the conversion yields 33 frames — below the
round-up value 34, and 33 frames cover only 990 ms of the configured
1000 ms. -/
theorem c7_counterexample :
    durationToFrames 1 30 = 33 ∧ durationToFramesSpec 1 30 = 34 ∧
    durationToFrames 1 30 ≠ durationToFramesSpec 1 30 ∧
    durationToFrames 1 30 * 30 < 1 * 1000 := by
  have h1 : durationToFrames 1 30 = 33 := by norm_num [durationToFrames]
  have h2 : durationToFramesSpec 1 30 = 34 := by
    rw [durationToFramesSpec, Int.ceil_eq_iff]
    norm_num
  exact ⟨h1, h2, by omega, by omega⟩

/-- Amended claim C7: each conversion divides the duration by the frame
duration and truncates toward zero (floor) rather than rounding up; for the
shipped configuration (1.5 s silence timeout, 0.3 s padding, 300 s cap,
30 ms frames) all three divisions are exact, so the computed capacities
50, 10 and 10000 equal the exact quotients, agree with the round-up policy,
and cover exactly the configured durations. -/
theorem c7_shipped_conversions :
    defaultConfig.ring_maxlen = 50 ∧
    defaultConfig.padding_frames = 10 ∧
    defaultConfig.max_frames = 10000 ∧
    (50 : Rat) * FRAME_DURATION_MS = SILENCE_TIMEOUT_SEC * 1000 ∧
    (10 : Rat) * FRAME_DURATION_MS = SPEECH_PAD_SEC * 1000 ∧
    (10000 : Rat) * FRAME_DURATION_MS = MAX_RECORDING_SEC * 1000 ∧
    durationToFrames SILENCE_TIMEOUT_SEC FRAME_DURATION_MS
      = durationToFramesSpec SILENCE_TIMEOUT_SEC FRAME_DURATION_MS ∧
    durationToFrames SPEECH_PAD_SEC FRAME_DURATION_MS
      = durationToFramesSpec SPEECH_PAD_SEC FRAME_DURATION_MS ∧
    durationToFrames MAX_RECORDING_SEC FRAME_DURATION_MS
      = durationToFramesSpec MAX_RECORDING_SEC FRAME_DURATION_MS := by
  refine ⟨?_, ?_, ?_, ?_, ?_, ?_, ?_, ?_, ?_⟩ <;>
    (norm_num [defaultConfig, durationToFrames, durationToFramesSpec,
      SILENCE_TIMEOUT_SEC, SPEECH_PAD_SEC, MAX_RECORDING_SEC,
      FRAME_DURATION_MS]) <;>
    try omega

/-- Claim C8: on every run the pre-speech buffer length never exceeds the
padding capacity and the silence ring length never exceeds the silence-ring
capacity (both hold at every state of the run trace), and an append to
either deque below capacity keeps all entries while an append at capacity
evicts exactly the oldest entry (FIFO). -/
theorem c8_bounded_buffers {α : Type} (cfg : Config) (c : α → Option Bool)
    (reads : Nat → ReadResult α) :
    (∀ t ∈ (runRecording cfg c reads).trace,
      t.pre_speech_buffer.length ≤ cfg.padding_frames ∧
      t.ring_buffer.length ≤ cfg.ring_maxlen) ∧
    (∀ (buf : List α) (y : α), buf.length < cfg.padding_frames →
      dequeAppend cfg.padding_frames buf y = buf ++ [y]) ∧
    (∀ (buf : List α) (y : α), 0 < cfg.padding_frames →
      buf.length = cfg.padding_frames →
      dequeAppend cfg.padding_frames buf y = buf.tail ++ [y]) ∧
    (∀ (rb : List Bool) (b : Bool), 0 < cfg.ring_maxlen →
      rb.length = cfg.ring_maxlen →
      dequeAppend cfg.ring_maxlen rb b = rb.tail ++ [b]) := by
  refine ⟨?_, ?_, ?_, ?_⟩
  · intro t ht
    have hg := @runAux_trace_good α cfg c reads cfg.max_frames initState
      (initState_good cfg) t ht
    exact ⟨hg.pre_le, hg.ring_le⟩
  · intro buf y h
    exact dequeAppend_of_lt y h
  · intro buf y h0 h
    exact dequeAppend_of_full y h0 h
  · intro rb b h0 h
    exact dequeAppend_of_full b h0 h

/-- Witness for C8: the first state of a concrete run respects both bounds,
an append below capacity keeps the buffer, and appends at capacity evict
exactly the oldest element of the padding deque and of the silence ring. -/
theorem c8_witness :
    ((⟨[], [0], [], false, 1, 1⟩ : RecState Nat).pre_speech_buffer.length
        ≤ cfgSmall.padding_frames ∧
      (⟨[], [0], [], false, 1, 1⟩ : RecState Nat).ring_buffer.length
        ≤ cfgSmall.ring_maxlen) ∧
    dequeAppend cfgSmall.padding_frames ([] : List Nat) 7 = [] ++ [7] ∧
    dequeAppend cfgSmall.padding_frames [9] 7 = [9].tail ++ [7] ∧
    dequeAppend cfgSmall.ring_maxlen [true, false] false
      = [true, false].tail ++ [false] := by
  have h := c8_bounded_buffers cfgSmall clFirst3 readsId
  exact ⟨h.1 ⟨[], [0], [], false, 1, 1⟩ (by decide),
    h.2.1 [] 7 (by decide),
    h.2.2.1 [9] 7 (by decide) (by decide),
    h.2.2.2 [true, false] false (by decide) (by decide)⟩

/-- Claim C9: on every exit path of `record_with_vad` — normal completion by
silence, hard-cap timeout, read failure, classifier failure (absorbed, so
covered by every classifier), or failure to open the stream — the PyAudio
handle is terminated before control returns (it is the last resource event),
and whenever the stream was opened it is also stopped and closed. -/
theorem c9_device_release {α : Type} (cfg : Config) (c : α → Option Bool)
    (openOk : Bool) (reads : Nat → ReadResult α) (w : Bool) :
    Event.paTerminate ∈ (record_with_vad cfg c openOk reads w).events ∧
    (record_with_vad cfg c openOk reads w).events.getLast?
      = some Event.paTerminate ∧
    (openOk = true →
      Event.streamStop ∈ (record_with_vad cfg c openOk reads w).events ∧
      Event.streamClose ∈ (record_with_vad cfg c openOk reads w).events) := by
  refine ⟨(record_paTerminate cfg c openOk reads w).1,
    (record_paTerminate cfg c openOk reads w).2, ?_⟩
  intro ho
  subst ho
  rw [record_events_open cfg c reads w]
  exact ⟨by decide, by decide⟩

/-- Witness for C9: on a concrete successful run the stream is stopped and
closed and PyAudio terminated last. -/
theorem c9_witness :
    Event.paTerminate
      ∈ (record_with_vad cfgSmall clFirst3 true readsId true).events ∧
    Event.streamStop
      ∈ (record_with_vad cfgSmall clFirst3 true readsId true).events ∧
    Event.streamClose
      ∈ (record_with_vad cfgSmall clFirst3 true readsId true).events := by
  have h := c9_device_release cfgSmall clFirst3 true readsId true
  have h3 := h.2.2 rfl
  exact ⟨h.1, h3.1, h3.2⟩

/-- Claim C10: the output frame sequence is always a contiguous suffix of
the frames actually delivered by the device, hence an order-preserving
subsequence of the captured stream; instantiated on the stream delivering
the frame index i at read i, the output is a sublist of `range total` and
has no duplicates — every frame read appears at most once, so the frame
completing the trigger (and the voiced frames before it) enter the output
only through the pre-speech buffer flush, never additionally through the
per-frame append of the RECORDING state. -/
theorem c10_output_subsequence :
    (∀ (α : Type) (cfg : Config) (c : α → Option Bool)
        (reads : Nat → ReadResult α),
      (runRecording cfg c reads).final.frames
        <:+ consumedUpTo reads
          (runRecording cfg c reads).final.total_frames) ∧
    (∀ (cfg : Config) (c : Nat → Option Bool),
      (runRecording cfg c readsId).final.frames.Sublist
        (List.range (runRecording cfg c readsId).final.total_frames) ∧
      (runRecording cfg c readsId).final.frames.Nodup) := by
  constructor
  · intro α cfg c reads
    exact runRecording_frames_suffix cfg c reads
  · intro cfg c
    have h := runRecording_frames_suffix cfg c readsId
    rw [consumedUpTo_readsId] at h
    exact ⟨h.sublist, (List.nodup_range _).sublist h.sublist⟩

end VoiceNotes

